import Mathlib

/-!
Verification development for the youtube2zim scraper (youtube2zim/scraper.py).

We shallowly embed the pure content of the scraper's pipeline:
dictionary merging in `extract_videos_list`, playlist resolution in
`extract_playlists`, metadata reconciliation in `update_metadata`,
branding validation in `check_branding_values`, and the per-playlist
ordering of the client-side data manifest written by `make_html_files`.

Python dictionaries keyed by video id are modelled as association lists
with insertion-order semantics (`dictInsert` replaces in place on an
existing key and appends new keys at the end, exactly as CPython dicts
behave). External collaborators (the YouTube API client, the cache
loader, slug and text-cleaning helpers from `utils.py`) are passed in
as function parameters, since their modules are not part of the
source tree under review; the control flow and data flow proved about
are those of `scraper.py` itself.
-/

namespace Youtube2Zim

/-- A video record as consumed by `scraper.py`: the fields of the raw
playlist-item JSON that the code actually reads.
`videoId` is `v["contentDetails"]["videoId"]`, `position` is
`v["snippet"]["position"]`, `title` and `description` come from
`v["snippet"]`, `publishedAt` is `v["contentDetails"]["videoPublishedAt"]`. -/
structure Video where
  videoId : String
  position : Nat
  title : String
  description : String
  publishedAt : String
deriving Repr, DecidableEq, Inhabited

/-- Membership test of a key in a Python-dict model (association list). -/
def dictMem : List (String × Video) → String → Bool
  | [], _ => false
  | p :: d, k => p.1 == k || dictMem d k

/-- Lookup in a Python-dict model: the first entry with the given key. -/
def dictLookup : List (String × Video) → String → Option Video
  | [], _ => none
  | p :: d, k => if p.1 = k then some p.2 else dictLookup d k

/-- Replace the value stored at an existing key, keeping entry order. -/
def dictSet : List (String × Video) → String → Video → List (String × Video)
  | [], _, _ => []
  | p :: d, k, v => (if p.1 = k then (k, v) else p) :: dictSet d k v

/-- CPython dict assignment `d[k] = v`: replace in place when the key is
present, append at the end otherwise. -/
def dictInsert (d : List (String × Video)) (k : String) (v : Video) :
    List (String × Video) :=
  if dictMem d k then dictSet d k v else d ++ [(k, v)]

/-- The keys of a dict model, in order. -/
def dictKeys (d : List (String × Video)) : List String := d.map Prod.fst

/-- The record of the last element of `vs` carrying video id `k`, if any.
Later list elements take priority: this is the value that survives
last-write-wins insertion. -/
def lastMatch : List Video → String → Option Video
  | [], _ => none
  | v :: vs, k =>
      match lastMatch vs k with
      | some w => some w
      | none => if v.videoId = k then some v else none

/-- Insert every video of `vs`, in order, into the dict `d`, keyed by
video id. This is `all_videos.update({v[...]["videoId"]: v for v in ...})`
of `extract_videos_list`. -/
def insertAll (d : List (String × Video)) (vs : List Video) :
    List (String × Video) :=
  vs.foldl (fun d v => dictInsert d v.videoId v) d

/-- The merged Video Set of `extract_videos_list` on a cold cache: the
per-playlist listings are folded, in playlist order, into one dict
keyed by video id. -/
def mergePlaylistVideos (playlists : List (List Video)) :
    List (String × Video) :=
  playlists.foldl insertAll []

/-- Result of running `extract_videos_list`: the in-memory merged dict
(`all_videos`), the cache entry for key `videos` after the run, and the
number of `get_videos_json` calls performed. -/
structure ExtractResult where
  videos : List (String × Video)
  cache : Option (List (String × Video))
  apiCalls : Nat
deriving Repr, DecidableEq

/-- Embedding of `Youtube2Zim.extract_videos_list`.
`cache` is the current content of the cached `videos` document
(`load_json(self.cache_dir, "videos")`), `playlistIds` the ids of
`self.playlists`, and `get_videos_json` the per-playlist API fetch.
When the cached document exists it is returned unchanged and no fetch
happens; otherwise the per-playlist listings are merged (last write
wins per video id) and the merged dict is saved back to the cache. -/
def extract_videos_list (cache : Option (List (String × Video)))
    (playlistIds : List String) (get_videos_json : String → List Video) :
    ExtractResult :=
  match cache with
  | some doc => { videos := doc, cache := some doc, apiCalls := 0 }
  | none =>
      let merged := mergePlaylistVideos (playlistIds.map get_videos_json)
      { videos := merged, cache := some merged,
        apiCalls := playlistIds.length }

/-- A resolved playlist record (`youtube.Playlist`, built by
`Playlist.from_id`): the fields `scraper.py` reads. -/
structure PlaylistRec where
  playlist_id : String
  title : String
  description : String
  creator_id : String
  slug : String
deriving Repr, DecidableEq, Inhabited

/-- The channel JSON as read by `extract_playlists` and
`update_metadata`: `id`, `contentDetails.relatedPlaylists.uploads`,
and the `snippet` title/description. -/
structure ChannelJson where
  id : String
  uploadsPlaylistId : String
  title : String
  description : String
deriving Repr, DecidableEq, Inhabited

/-- The collection type constants `CHANNEL`, `PLAYLIST`, `USER` of
`constants.py`; `run` raises `NotImplementedError` for anything else,
so the embedding covers exactly these three. -/
inductive CollectionType where
  | channel
  | user
  | playlist
deriving Repr, DecidableEq

/-- The API collaborators used by `extract_playlists` (their module,
`youtube.py`, is outside the source tree under review, so they are
environment parameters; `scraper.py` only composes their results). -/
structure ApiEnv where
  get_channel_json : String → ChannelJson
  get_channel_json_by_username : String → ChannelJson
  get_channel_playlists_json : String → List String
  playlist_from_id : String → PlaylistRec

/-- Python `s.split(",")` on the character list: splitting on a comma
always yields at least one (possibly empty) group. -/
def splitCommaChars : List Char → List (List Char)
  | [] => [[]]
  | c :: rest =>
      let r := splitCommaChars rest
      if c = ',' then [] :: r
      else
        match r with
        | [] => [[c]]
        | g :: gs => (c :: g) :: gs

/-- Python `self.youtube_id.split(",")`. -/
def splitComma (s : String) : List String :=
  (splitCommaChars s.data).map List.asString

/-- The playlist-id list computed by `extract_playlists` before each id
is resolved to a `PlaylistRec`: channel playlists plus the uploads
playlist for Channel/User, the comma-separated ids for PlaylistList,
deduplicated by `list(set(playlist_ids))`. CPython set iteration order
is unspecified, so deduplication is modelled by `List.dedup`; the
properties proved (membership and absence of duplicates) do not depend
on the element order. -/
def extract_playlist_ids (ct : CollectionType) (youtubeId : String)
    (api : ApiEnv) : List String :=
  match ct with
  | .user =>
      let cj := api.get_channel_json_by_username youtubeId
      (api.get_channel_playlists_json cj.id ++ [cj.uploadsPlaylistId]).dedup
  | .channel =>
      let cj := api.get_channel_json youtubeId
      (api.get_channel_playlists_json cj.id ++ [cj.uploadsPlaylistId]).dedup
  | .playlist => (splitComma youtubeId).dedup

/-- The `self.main_channel_id` assigned by `extract_playlists`: the
channel id for Channel/User collections, the creator of the first
listed playlist for PlaylistList collections. -/
def main_channel_id (ct : CollectionType) (youtubeId : String)
    (api : ApiEnv) : String :=
  match ct with
  | .user => (api.get_channel_json_by_username youtubeId).id
  | .channel => (api.get_channel_json youtubeId).id
  | .playlist => (api.playlist_from_id (splitComma youtubeId).headI).creator_id

/-- Embedding of `Youtube2Zim.extract_playlists`: the resolved
`self.playlists` (each deduplicated id resolved through
`Playlist.from_id`) together with `self.main_channel_id`. -/
def extract_playlists (ct : CollectionType) (youtubeId : String)
    (api : ApiEnv) : List PlaylistRec × String :=
  ((extract_playlist_ids ct youtubeId api).map api.playlist_from_id,
    main_channel_id ct youtubeId api)

/-- Python string truthiness for optional string fields: `None` and the
empty string are falsy. -/
def pyTruthy (o : Option String) : Bool :=
  match o with
  | none => false
  | some s => !(s == "")

/-- Python `user or derived` for optional string fields. -/
def pyOr (user : Option String) (derived : String) : String :=
  match user with
  | none => derived
  | some s => if s = "" then derived else s

/-- The mutable archive-metadata fields of the `Youtube2Zim` object as
they stand when `update_metadata` runs: each optional field holds the
user-supplied value or `None`. -/
structure MetaState where
  title : Option String
  description : Option String
  creator : Option String
  publisher : Option String
  name : Option String
  tags : Option (List String)
  mainColor : Option String
  secondaryColor : Option String
deriving Repr, DecidableEq

/-- The data `update_metadata` reads from its collaborators: the
collection type, the resolved playlists, the main channel snippet, and
the colors sampled from the profile image by `get_colors`. -/
structure MetaInput where
  isPlaylist : Bool
  playlists : List PlaylistRec
  mainChannelTitle : String
  mainChannelDescription : String
  profileMainColor : String
  profileSecondaryColor : String
deriving Repr, DecidableEq

/-- The derived title of `update_metadata`: the single playlist title
when the collection is a playlist list with exactly one playlist, else
the stripped main-channel title. -/
def auto_title (inp : MetaInput) : String :=
  if inp.isPlaylist && inp.playlists.length == 1 then
    inp.playlists.headI.title
  else inp.mainChannelTitle.trim

/-- The derived description of `update_metadata`; `clean_text` lives in
`utils.py` (outside the source tree) and is passed as a parameter. -/
def auto_description (inp : MetaInput) (cleanText : String → String) :
    String :=
  if inp.isPlaylist && inp.playlists.length == 1 then
    cleanText inp.playlists.headI.description
  else cleanText inp.mainChannelDescription

/-- Python `self.tags or ["youtube"]`: `None` and the empty list are
falsy. -/
def tagsBase (tags : Option (List String)) : List String :=
  match tags with
  | none => ["youtube"]
  | some ts => if ts = [] then ["youtube"] else ts

/-- Embedding of `Youtube2Zim.update_metadata` (its pure
field-resolution part; branding file copies are modelled separately).
Note the `name` assignment: the code sets
`self.name = "youtube-\x7bident\x7d_\x7blang\x7d_all"` unconditionally,
without consulting any previous value and without formatting the
placeholders. -/
def update_metadata (st : MetaState) (inp : MetaInput)
    (cleanText : String → String) : MetaState :=
  let title := pyOr st.title (auto_title inp)
  let description := pyOr st.description (auto_description inp cleanText)
  let creator :=
    match st.creator with
    | none =>
        if inp.isPlaylist then "Youtube Channels"
        else "Youtube Channel “" ++ inp.mainChannelTitle ++ "”"
    | some c => c
  let publisher := pyOr st.publisher "Kiwix"
  let name := "youtube-{ident}_{lang}_all"
  let tags0 := tagsBase st.tags
  let tags := if "_videos:yes" ∈ tags0 then tags0 else tags0 ++ ["_videos:yes"]
  let mainColor := pyOr st.mainColor inp.profileMainColor
  let secondaryColor := pyOr st.secondaryColor inp.profileSecondaryColor
  { title := some title, description := some description,
    creator := some creator, publisher := some publisher,
    name := some name, tags := some tags,
    mainColor := some mainColor, secondaryColor := some secondaryColor }

/-- A flat model of the files relevant to branding: the set of paths
that currently exist. `resize_image` edits a file in place and never
changes which paths exist, so it needs no representation here. -/
structure FS where
  files : List String
deriving Repr, DecidableEq

/-- Path existence (`Path.exists`). -/
def FS.has (fs : FS) (p : String) : Bool :=
  fs.files.any (fun q => q == p)

/-- Creating or overwriting a file at `p` (`save_file` downloading to a
destination path). -/
def FS.save (fs : FS) (p : String) : FS :=
  { files := p :: fs.files }

/-- Deleting a file at `p`. -/
def FS.remove (fs : FS) (p : String) : FS :=
  { files := fs.files.filter (fun q => !(q == p)) }

/-- `shutil.move(src, dst)`: the file disappears from `src` and appears
at `dst`. -/
def FS.move (fs : FS) (src dst : String) : FS :=
  (fs.remove src).save dst

/-- The failure modes of `check_branding_values`: the two `IOError`
branches for missing local images and the two `ValueError` branches for
invalid colors. -/
inductive BrandErr where
  | profileMissing
  | bannerMissing
  | badMainColor
  | badSecondaryColor
deriving Repr, DecidableEq

/-- A hexadecimal digit, upper or lower case. -/
def isHexDigitChar (c : Char) : Bool :=
  c.isDigit || (decide ('a' ≤ c) && decide (c ≤ 'f')) ||
    (decide ('A' ≤ c) && decide (c ≤ 'F'))

/-- Modelled from the spec: `is_hex_color` lives in
`youtube2zim/utils.py`, which is not part of the source tree under
review. The spec requires a strict hex-color pattern, accepting
`"#1a2b3c"` and rejecting `"red"` and the 5-digit `"#1a2b3"`; we model
the usual CSS form the scraper relies on, a `#` followed by exactly 3
or 6 hexadecimal digits. -/
def is_hex_color (s : String) : Bool :=
  match s.data with
  | [] => false
  | c :: rest =>
      decide (c = '#') &&
        (decide (rest.length = 3) || decide (rest.length = 6)) &&
        rest.all isHexDigitChar

/-- The user-supplied branding values checked by
`check_branding_values` (each `None` when not supplied). -/
structure BrandingState where
  profile_image : Option String
  banner_image : Option String
  main_color : Option String
  secondary_color : Option String
deriving Repr, DecidableEq

/-- Python `s.startswith("http")`, the test `check_branding_values`
uses to distinguish a remote image URL from a local path. -/
def isUrl (s : String) : Bool :=
  match s.data with
  | 'h' :: 't' :: 't' :: 'p' :: _ => true
  | _ => false

/-- One image block of `check_branding_values`: skipped when the value
is falsy; a URL is downloaded to the destination path; an existing
local path is moved (`shutil.move`) onto the destination path; a
missing local path raises `IOError`. The subsequent `resize_image`
edits the destination in place and changes no path existence. -/
def handleImage (img : Option String) (fs : FS) (dest : String)
    (missing : BrandErr) : FS × Option BrandErr :=
  match img with
  | none => (fs, none)
  | some s =>
      if s = "" then (fs, none)
      else if isUrl s then (fs.save dest, none)
      else if fs.has s then (fs.move s dest, none)
      else (fs, some missing)

/-- Embedding of `Youtube2Zim.check_branding_values`: the whole check
is skipped when none of the four values is supplied; otherwise the
profile image is handled, then the banner image, then the two color
values are validated against `is_hex_color`. The returned `FS` is the
file state reached when the function returns or raises, and the
returned error is the exception raised, if any. -/
def check_branding_values (st : BrandingState) (fs : FS)
    (profilePath bannerPath : String) : FS × Option BrandErr :=
  if (pyTruthy st.profile_image || pyTruthy st.banner_image ||
      pyTruthy st.main_color || pyTruthy st.secondary_color) = false then
    (fs, none)
  else
    let r1 := handleImage st.profile_image fs profilePath .profileMissing
    match r1.2 with
    | some e => (r1.1, some e)
    | none =>
        let r2 := handleImage st.banner_image r1.1 bannerPath .bannerMissing
        match r2.2 with
        | some e => (r2.1, some e)
        | none =>
            if pyTruthy st.main_color &&
                !(is_hex_color ((st.main_color).getD "")) then
              (r2.1, some .badMainColor)
            else if pyTruthy st.secondary_color &&
                !(is_hex_color ((st.secondary_color).getD "")) then
              (r2.1, some .badSecondaryColor)
            else (r2.1, none)

/-- The fatal errors raised by the front of `run`: the credentials
probe failure and the `check_branding_values` exceptions. -/
inductive RunError where
  | credentials
  | branding (e : BrandErr)
deriving Repr, DecidableEq

/-- What the front of `run` did: the error it stopped at (if any),
whether the playlist/video extraction stage was ever entered, and the
number of `get_videos_json` calls issued. -/
structure RunTrace where
  error : Option RunError
  extractionRan : Bool
  videoApiCalls : Nat
deriving Repr, DecidableEq

/-- Embedding of the front of `Youtube2Zim.run`: test credentials,
run `check_branding_values`, and only then run `extract_playlists`
followed by `extract_videos_list`. An exception aborts the run before
the extraction stage is entered. -/
def run_until_extraction (credOk : Bool) (branding : BrandingState)
    (fs : FS) (profilePath bannerPath : String) (ct : CollectionType)
    (youtubeId : String) (api : ApiEnv)
    (cache : Option (List (String × Video)))
    (get_videos_json : String → List Video) : RunTrace :=
  if credOk = false then
    { error := some .credentials, extractionRan := false, videoApiCalls := 0 }
  else
    match (check_branding_values branding fs profilePath bannerPath).2 with
    | some e =>
        { error := some (.branding e), extractionRan := false,
          videoApiCalls := 0 }
    | none =>
        let pls := extract_playlists ct youtubeId api
        let res := extract_videos_list cache
          (pls.1.map (fun p => p.playlist_id)) get_videos_json
        { error := none, extractionRan := true,
          videoApiCalls := res.apiCalls }

/-- One entry of the per-playlist JSON arrays written into
`assets/data.js` by `make_html_files`. -/
structure DataJsEntry where
  id : String
  title : String
  slug : String
  description : String
  thumbnail : String
deriving Repr, DecidableEq

/-- Python `s.replace("\n", "<br />")` on the character list. -/
def brNewlines : List Char → List Char
  | [] => []
  | c :: rest =>
      if c = '\n' then
        ('<' :: 'b' :: 'r' :: ' ' :: '/' :: '>' :: ([] : List Char)) ++
          brNewlines rest
      else c :: brNewlines rest

/-- Python `s.replace("\n", "<br />")`. -/
def replaceNewlines (s : String) : String :=
  (brNewlines s.data).asString

/-- The `to_data_js` helper of `make_html_files`; `get_slug` lives in
`utils.py` (outside the source tree) and is passed as a parameter.
The thumbnail path is `str(Path("videos").joinpath(id, "video.jpg"))`. -/
def to_data_js (getSlug : String → String) (v : Video) : DataJsEntry :=
  { id := v.videoId, title := v.title, slug := getSlug v.title,
    description := replaceNewlines v.description,
    thumbnail := "videos/" ++ v.videoId ++ "/video.jpg" }

/-- Comparison by original playlist position, the key of
`playlist_videos.sort(key=lambda v: v["snippet"]["position"])`. -/
def posLe (a b : Video) : Prop := a.position ≤ b.position

instance : DecidableRel posLe := fun a b => Nat.decLe a.position b.position

instance : IsTotal Video posLe := ⟨fun a b => Nat.le_total a.position b.position⟩

instance : IsTrans Video posLe := ⟨fun _ _ _ h1 h2 => Nat.le_trans h1 h2⟩

/-- Python `list.sort` with the position key: a stable ascending sort,
modelled by the stable `insertionSort`. -/
def sort_by_position (vs : List Video) : List Video :=
  List.insertionSort posLe vs

/-- The per-playlist arrays written into `assets/data.js`: for each
resolved playlist, in order, the cached per-playlist listing
(`playlist_<id>_videos`) sorted by position and mapped through
`to_data_js`, bound to the playlist slug. -/
def data_js_arrays (playlists : List PlaylistRec)
    (cacheLoad : String → List Video) (getSlug : String → String) :
    List (String × List DataJsEntry) :=
  playlists.map fun pl =>
    (pl.slug,
      (sort_by_position (cacheLoad pl.playlist_id)).map (to_data_js getSlug))

/-! Concrete fixtures used to instantiate the theorems below on small
inputs, following the two-playlist example of the spec: PL1 holds
videos v1 and v2, PL2 holds its own copy of v2 followed by v3. -/

/-- Video v1 at position 0 of PL1. -/
def v1pl1 : Video := ⟨"v1", 0, "First", "d1", "2019-01-01"⟩

/-- Video v2 at position 1 of PL1. -/
def v2pl1 : Video := ⟨"v2", 1, "Second from PL1", "d2", "2019-01-02"⟩

/-- Video v2 at position 0 of PL2 (same id as `v2pl1`, different
payload). -/
def v2pl2 : Video := ⟨"v2", 0, "Second from PL2", "d2b", "2019-01-02"⟩

/-- Video v3 at position 1 of PL2. -/
def v3pl2 : Video := ⟨"v3", 1, "Third", "d3", "2019-01-03"⟩

/-- The per-playlist listings of the two sample playlists. -/
def c1fetch : String → List Video :=
  fun pid => if pid = "PL1" then [v1pl1, v2pl1] else [v2pl2, v3pl2]

/-- A metadata state where the user supplied title and description. -/
def c4StUser : MetaState :=
  ⟨some "My Title", some "My Desc", none, none, none, none, none, none⟩

/-- A metadata state where the user supplied nothing. -/
def c4StAuto : MetaState := ⟨none, none, none, none, none, none, none, none⟩

/-- A single-playlist collection input for `update_metadata`. -/
def c4Inp : MetaInput :=
  ⟨true, [⟨"PL1", "PL Title", "PL Desc", "chan1", "pl-title"⟩],
    "Chan Title", "Chan Desc", "#101010", "#202020"⟩

/-- A metadata state where the user supplied only the archive name. -/
def c5St : MetaState :=
  ⟨none, none, none, none, some "my-archive-name", none, none, none⟩

/-- A channel collection input for `update_metadata`. -/
def c5Inp : MetaInput :=
  ⟨false, [], "Chan Title", "Chan Desc", "#101010", "#202020"⟩

/-- A metadata state where the user supplied a tag list without the
capability tag. -/
def c6St : MetaState :=
  ⟨none, none, none, none, none, some ["edu"], none, none⟩

/-- A metadata state where the user supplied no tags. -/
def c6StNone : MetaState := ⟨none, none, none, none, none, none, none, none⟩

/-- A concrete API environment: each playlist id resolves to a record
with that id and a derived creator id. -/
def c8api : ApiEnv :=
  { get_channel_json := fun cid => ⟨cid, "UU" ++ cid, "T", "D"⟩,
    get_channel_json_by_username := fun u => ⟨"chan-" ++ u, "UUx", "T", "D"⟩,
    get_channel_playlists_json := fun _ => ["PLa"],
    playlist_from_id := fun pid =>
      ⟨pid, "title-" ++ pid, "desc", "creator-" ++ pid, "slug-" ++ pid⟩ }

/-- The sample playlist PL1 as a resolved record. -/
def c9pl : PlaylistRec := ⟨"PL1", "Pl one", "pl desc", "chan1", "pl-one"⟩

/-- A cached per-playlist listing that is stored out of position order:
the position-1 video precedes the position-0 video. -/
def c9load : String → List Video := fun _ => [v2pl1, v1pl1]

/-- A file system holding one user-supplied local image. -/
def c10fs : FS := ⟨["/home/u/pic.jpg"]⟩

theorem dictKeys_nil : dictKeys [] = [] := rfl

theorem dictKeys_cons (p : String × Video) (d : List (String × Video)) :
    dictKeys (p :: d) = p.1 :: dictKeys d := rfl

theorem dictMem_iff (d : List (String × Video)) (k : String) :
    dictMem d k = true ↔ k ∈ dictKeys d := by
  induction d with
  | nil => simp [dictMem, dictKeys_nil]
  | cons p d ih =>
      by_cases hp : p.1 = k
      · simp [dictMem, hp, dictKeys_cons, beq_iff_eq]
      · have hne : k ≠ p.1 := fun hk => hp hk.symm
        simp [dictMem, hp, dictKeys_cons, beq_iff_eq, ih, hne]

theorem dictKeys_dictSet (d : List (String × Video)) (k : String) (v : Video) :
    dictKeys (dictSet d k v) = dictKeys d := by
  induction d with
  | nil => rfl
  | cons p d ih =>
      by_cases h : p.1 = k
      · simp [dictSet, h, dictKeys_cons, ih]
      · simp [dictSet, h, dictKeys_cons, ih]

theorem dictSet_of_not_mem (d : List (String × Video)) (k : String) (v : Video)
    (h : dictMem d k = false) : dictSet d k v = d := by
  induction d with
  | nil => rfl
  | cons p d ih =>
      simp [dictMem] at h
      simp [dictSet, h.1, ih h.2]

theorem dictLookup_dictSet_self (d : List (String × Video)) (k : String)
    (v : Video) (h : dictMem d k = true) :
    dictLookup (dictSet d k v) k = some v := by
  induction d with
  | nil => simp [dictMem] at h
  | cons p d ih =>
      by_cases hp : p.1 = k
      · simp [dictSet, hp, dictLookup]
      · simp [dictMem, hp, beq_iff_eq] at h
        simp [dictSet, hp, dictLookup, ih h]

theorem dictLookup_dictSet_other (d : List (String × Video)) (k k' : String)
    (v : Video) (h : k' ≠ k) :
    dictLookup (dictSet d k v) k' = dictLookup d k' := by
  induction d with
  | nil => rfl
  | cons p d ih =>
      by_cases hp : p.1 = k
      · have : k ≠ k' := fun hk => h hk.symm
        simp [dictSet, hp, dictLookup, this, ih]
      · simp [dictSet, hp, dictLookup, ih]

theorem dictLookup_append (d₁ d₂ : List (String × Video)) (k : String) :
    dictLookup (d₁ ++ d₂) k =
      match dictLookup d₁ k with
      | some v => some v
      | none => dictLookup d₂ k := by
  induction d₁ with
  | nil => simp [dictLookup]
  | cons p d ih =>
      by_cases hp : p.1 = k <;> simp [dictLookup, hp, ih]

theorem dictLookup_eq_none_of_not_mem (d : List (String × Video)) (k : String)
    (h : dictMem d k = false) : dictLookup d k = none := by
  induction d with
  | nil => rfl
  | cons p d ih =>
      simp [dictMem] at h
      simp [dictLookup, h.1, ih h.2]

theorem dictLookup_dictInsert (d : List (String × Video)) (k : String)
    (v : Video) (k' : String) :
    dictLookup (dictInsert d k v) k' =
      if k' = k then some v else dictLookup d k' := by
  unfold dictInsert
  by_cases hm : dictMem d k = true
  · by_cases hk : k' = k
    · subst hk; simp [hm, dictLookup_dictSet_self d k' v hm]
    · simp [hm, hk, dictLookup_dictSet_other d k k' v hk]
  · have hmf : dictMem d k = false := by simpa using hm
    rw [if_neg hm, dictLookup_append]
    by_cases hk : k' = k
    · subst hk
      simp [dictLookup_eq_none_of_not_mem d k' hmf, dictLookup]
    · have hk2 : ¬k = k' := fun hkk => hk hkk.symm
      cases h : dictLookup d k' <;>
        simp [dictLookup, hk, hk2, h]

theorem dictKeys_append (d₁ d₂ : List (String × Video)) :
    dictKeys (d₁ ++ d₂) = dictKeys d₁ ++ dictKeys d₂ := by
  simp [dictKeys]

theorem dictKeys_dictInsert (d : List (String × Video)) (k : String)
    (v : Video) :
    dictKeys (dictInsert d k v) =
      if dictMem d k then dictKeys d else dictKeys d ++ [k] := by
  unfold dictInsert
  by_cases hm : dictMem d k = true
  · rw [if_pos hm, if_pos hm, dictKeys_dictSet]
  · rw [if_neg hm, if_neg hm, dictKeys_append]
    rfl

theorem nodup_dictInsert (d : List (String × Video)) (k : String) (v : Video)
    (h : (dictKeys d).Nodup) : (dictKeys (dictInsert d k v)).Nodup := by
  rw [dictKeys_dictInsert]
  by_cases hm : dictMem d k = true
  · simpa [hm] using h
  · have hk : k ∉ dictKeys d := fun hmem =>
      by simp [(dictMem_iff d k).mpr hmem] at hm
    simp [hm, List.nodup_append, h, hk]

theorem insertAll_lookup (vs : List Video) (d : List (String × Video))
    (k : String) :
    dictLookup (insertAll d vs) k =
      match lastMatch vs k with
      | some w => some w
      | none => dictLookup d k := by
  induction vs generalizing d with
  | nil => simp [insertAll, lastMatch]
  | cons v vs ih =>
      have step : insertAll d (v :: vs) = insertAll (dictInsert d v.videoId v) vs := rfl
      rw [step, ih]
      cases h : lastMatch vs k with
      | some w => simp [lastMatch, h]
      | none =>
          rw [dictLookup_dictInsert]
          by_cases hv : v.videoId = k
          · simp [lastMatch, h, hv]
          · have : k ≠ v.videoId := fun hk => hv hk.symm
            simp [lastMatch, h, hv, this]

theorem insertAll_nodup (vs : List Video) (d : List (String × Video))
    (h : (dictKeys d).Nodup) : (dictKeys (insertAll d vs)).Nodup := by
  induction vs generalizing d with
  | nil => simpa [insertAll] using h
  | cons v vs ih =>
      have step : insertAll d (v :: vs) = insertAll (dictInsert d v.videoId v) vs := rfl
      rw [step]
      exact ih _ (nodup_dictInsert d v.videoId v h)

theorem lastMatch_append (xs ys : List Video) (k : String) :
    lastMatch (xs ++ ys) k =
      match lastMatch ys k with
      | some w => some w
      | none => lastMatch xs k := by
  induction xs with
  | nil =>
      cases h : lastMatch ys k <;> simp [lastMatch, h]
  | cons x xs ih =>
      have : (x :: xs) ++ ys = x :: (xs ++ ys) := rfl
      rw [this]
      cases h : lastMatch ys k with
      | some w => simp [lastMatch, ih, h]
      | none => simp [lastMatch, ih, h]

theorem lastMatch_eq_none_iff (vs : List Video) (k : String) :
    lastMatch vs k = none ↔ ∀ v ∈ vs, v.videoId ≠ k := by
  induction vs with
  | nil => simp [lastMatch]
  | cons v vs ih =>
      cases h : lastMatch vs k with
      | some w =>
          simp only [lastMatch, h]
          constructor
          · intro hx; cases hx
          · intro hall
            have : ∀ u ∈ vs, u.videoId ≠ k := fun u hu => hall u (by simp [hu])
            rw [ih.mpr this] at h
            cases h
      | none =>
          simp only [lastMatch, h]
          by_cases hv : v.videoId = k
          · constructor
            · intro hx
              rw [if_pos hv] at hx
              cases hx
            · intro hall
              exact absurd hv (hall v (List.mem_cons_self v vs))
          · constructor
            · intro _ u hu
              rcases List.mem_cons.mp hu with rfl | hu2
              · exact hv
              · exact (ih.mp h) u hu2
            · intro _
              rw [if_neg hv]

theorem foldl_insertAll_lookup (pls : List (List Video))
    (d : List (String × Video)) (k : String) :
    dictLookup (pls.foldl insertAll d) k =
      match lastMatch pls.flatten k with
      | some w => some w
      | none => dictLookup d k := by
  induction pls generalizing d with
  | nil => simp [lastMatch]
  | cons l pls ih =>
      have step : (l :: pls).foldl insertAll d = pls.foldl insertAll (insertAll d l) := rfl
      have hjoin : (l :: pls).flatten = l ++ pls.flatten := by simp
      rw [step, ih, hjoin, lastMatch_append]
      cases h : lastMatch pls.flatten k with
      | some w => simp
      | none => rw [insertAll_lookup]

theorem foldl_insertAll_nodup (pls : List (List Video))
    (d : List (String × Video)) (h : (dictKeys d).Nodup) :
    (dictKeys (pls.foldl insertAll d)).Nodup := by
  induction pls generalizing d with
  | nil => simpa using h
  | cons l pls ih => exact ih _ (insertAll_nodup l d h)

theorem mergePlaylistVideos_lookup (pls : List (List Video)) (k : String) :
    dictLookup (mergePlaylistVideos pls) k = lastMatch pls.flatten k := by
  rw [mergePlaylistVideos, foldl_insertAll_lookup]
  cases h : lastMatch pls.flatten k <;> simp [dictLookup]

theorem mergePlaylistVideos_nodup (pls : List (List Video)) :
    (dictKeys (mergePlaylistVideos pls)).Nodup :=
  foldl_insertAll_nodup pls [] (by simp [dictKeys])

theorem dictLookup_ne_none_iff (d : List (String × Video)) (k : String) :
    dictLookup d k ≠ none ↔ k ∈ dictKeys d := by
  induction d with
  | nil => simp [dictLookup, dictKeys_nil]
  | cons p d ih =>
      by_cases hp : p.1 = k
      · simp [dictLookup, hp, dictKeys_cons]
      · have hne : k ≠ p.1 := fun hk => hp hk.symm
        simp [dictLookup, hp, dictKeys_cons, ih, hne]

theorem lastMatch_ne_none_iff (vs : List Video) (k : String) :
    lastMatch vs k ≠ none ↔ ∃ v, v ∈ vs ∧ v.videoId = k := by
  rw [Ne, lastMatch_eq_none_iff]
  push_neg
  simp

/-- C1: on a cold cache, the merged Video Set of `extract_videos_list`
is keyed by video id with no duplicate keys; a video id is present
exactly when some resolved playlist lists it; the record stored for an
id is that of its last occurrence in playlist-processing order, so
when two playlists share a video id a single record is retained and
the later-processed playlist's record wins. -/
theorem C1_cold_cache_merge (plIds : List String)
    (fetch : String → List Video) :
    (dictKeys (extract_videos_list none plIds fetch).videos).Nodup ∧
    (∀ k, k ∈ dictKeys (extract_videos_list none plIds fetch).videos ↔
      ∃ v, v ∈ (plIds.map fetch).flatten ∧ v.videoId = k) ∧
    (∀ k, dictLookup (extract_videos_list none plIds fetch).videos k =
      lastMatch ((plIds.map fetch).flatten) k) ∧
    (∀ ids1 ids2 k, plIds = ids1 ++ ids2 →
      lastMatch ((ids2.map fetch).flatten) k ≠ none →
      dictLookup (extract_videos_list none plIds fetch).videos k =
        lastMatch ((ids2.map fetch).flatten) k) := by
  have hv : (extract_videos_list none plIds fetch).videos =
      mergePlaylistVideos (plIds.map fetch) := rfl
  refine ⟨?_, ?_, ?_, ?_⟩
  · rw [hv]
    exact mergePlaylistVideos_nodup _
  · intro k
    rw [hv, ← dictLookup_ne_none_iff, mergePlaylistVideos_lookup]
    exact lastMatch_ne_none_iff _ k
  · intro k
    rw [hv, mergePlaylistVideos_lookup]
  · intro ids1 ids2 k hsplit hne
    subst hsplit
    rw [hv, mergePlaylistVideos_lookup]
    have hfl : ((ids1 ++ ids2).map fetch).flatten =
        (ids1.map fetch).flatten ++ (ids2.map fetch).flatten := by simp
    rw [hfl, lastMatch_append]
    cases h : lastMatch ((ids2.map fetch).flatten) k with
    | some w => simp
    | none => exact absurd h hne

theorem C1_cold_cache_merge_witness :
    dictLookup (extract_videos_list none ["PL1", "PL2"] c1fetch).videos "v2" =
      lastMatch ((["PL2"].map c1fetch).flatten) "v2" ∧
    lastMatch ((["PL2"].map c1fetch).flatten) "v2" = some v2pl2 :=
  ⟨(C1_cold_cache_merge ["PL1", "PL2"] c1fetch).2.2.2 ["PL1"] ["PL2"] "v2"
      rfl (by decide),
    by decide⟩

/-- C2: `extract_videos_list` is idempotent with respect to the cache:
a present cached `videos` document is returned unchanged with zero
`get_videos_json` calls, and a second run against the cache produced
by any first run reproduces the identical document with zero
additional API calls. -/
theorem C2_warm_cache_idempotent (doc : List (String × Video))
    (plIds : List String) (fetch : String → List Video) :
    extract_videos_list (some doc) plIds fetch =
      { videos := doc, cache := some doc, apiCalls := 0 } ∧
    ∀ cache, extract_videos_list
        (extract_videos_list cache plIds fetch).cache plIds fetch =
      { videos := (extract_videos_list cache plIds fetch).videos,
        cache := (extract_videos_list cache plIds fetch).cache,
        apiCalls := 0 } := by
  refine ⟨rfl, ?_⟩
  intro cache
  cases cache <;> rfl

/-- C3: for a Channel or User collection, the playlist-id set computed
by `extract_playlists` has no duplicates (set semantics applied before
resolving) and always contains the channel's uploads playlist, whose
resolved record is therefore among the produced playlists — whatever
the channel's explicit playlist list is, including when it omits the
uploads playlist. -/
theorem C3_uploads_included_nodup (youtubeId : String) (api : ApiEnv) :
    ((extract_playlist_ids .channel youtubeId api).Nodup ∧
      (api.get_channel_json youtubeId).uploadsPlaylistId ∈
        extract_playlist_ids .channel youtubeId api ∧
      api.playlist_from_id
          (api.get_channel_json youtubeId).uploadsPlaylistId ∈
        (extract_playlists .channel youtubeId api).1) ∧
    ((extract_playlist_ids .user youtubeId api).Nodup ∧
      (api.get_channel_json_by_username youtubeId).uploadsPlaylistId ∈
        extract_playlist_ids .user youtubeId api ∧
      api.playlist_from_id
          (api.get_channel_json_by_username youtubeId).uploadsPlaylistId ∈
        (extract_playlists .user youtubeId api).1) := by
  constructor
  · have hmem : (api.get_channel_json youtubeId).uploadsPlaylistId ∈
        extract_playlist_ids .channel youtubeId api := by
      simp only [extract_playlist_ids]
      exact List.mem_dedup.mpr (List.mem_append_right _ (by simp))
    exact ⟨List.nodup_dedup _, hmem, List.mem_map_of_mem _ hmem⟩
  · have hmem : (api.get_channel_json_by_username youtubeId).uploadsPlaylistId ∈
        extract_playlist_ids .user youtubeId api := by
      simp only [extract_playlist_ids]
      exact List.mem_dedup.mpr (List.mem_append_right _ (by simp))
    exact ⟨List.nodup_dedup _, hmem, List.mem_map_of_mem _ hmem⟩

/-- C4: after `update_metadata`, a non-empty user-supplied title is the
final title; otherwise the final title is the derived value
(`auto_title`: the single playlist's title for a one-playlist playlist
collection, else the main channel's title); the same user-wins-else-
derived rule holds for the description. -/
theorem C4_title_description_precedence (st : MetaState) (inp : MetaInput)
    (cleanText : String → String) :
    (∀ t, st.title = some t → t ≠ "" →
      (update_metadata st inp cleanText).title = some t) ∧
    (st.title = none ∨ st.title = some "" →
      (update_metadata st inp cleanText).title = some (auto_title inp)) ∧
    (∀ d, st.description = some d → d ≠ "" →
      (update_metadata st inp cleanText).description = some d) ∧
    (st.description = none ∨ st.description = some "" →
      (update_metadata st inp cleanText).description =
        some (auto_description inp cleanText)) := by
  refine ⟨?_, ?_, ?_, ?_⟩
  · intro t ht hne
    simp [update_metadata, pyOr, ht, hne]
  · rintro (h | h) <;> simp [update_metadata, pyOr, h]
  · intro d hd hne
    simp [update_metadata, pyOr, hd, hne]
  · rintro (h | h) <;> simp [update_metadata, pyOr, h]

theorem C4_title_description_precedence_witness :
    (update_metadata c4StUser c4Inp id).title = some "My Title" ∧
    (update_metadata c4StAuto c4Inp id).title = some (auto_title c4Inp) :=
  ⟨(C4_title_description_precedence c4StUser c4Inp id).1 "My Title" rfl
      (by decide),
    (C4_title_description_precedence c4StAuto c4Inp id).2.1 (Or.inl rfl)⟩

/-- C5: the claim says every Archive Metadata field, including `name`,
obeys the user-wins, never-overwritten fallback rule. The code
contradicts it: `update_metadata` assigns the literal template string
to `self.name` unconditionally (without the `self.name or ...` guard
used for every neighbouring field, and without formatting the
placeholders), so a user-supplied name does not survive. -/
theorem C5_user_name_discarded :
    c5St.name = some "my-archive-name" ∧
    (update_metadata c5St c5Inp id).name =
      some "youtube-{ident}_{lang}_all" ∧
    (update_metadata c5St c5Inp id).name ≠ c5St.name := by
  exact ⟨rfl, rfl, by decide⟩

/-- C6: after `update_metadata` the tags list carries the capability
tag `_videos:yes` exactly once when it was absent from the incoming
tag list (appended at the end), and with no user-supplied tags the
final list is exactly `["youtube", "_videos:yes"]`. -/
theorem C6_capability_tag (st : MetaState) (inp : MetaInput)
    (cleanText : String → String) :
    ("_videos:yes" ∉ tagsBase st.tags →
      (update_metadata st inp cleanText).tags =
        some (tagsBase st.tags ++ ["_videos:yes"]) ∧
      (tagsBase st.tags ++ ["_videos:yes"]).count "_videos:yes" = 1) ∧
    (st.tags = none ∨ st.tags = some [] →
      (update_metadata st inp cleanText).tags =
        some ["youtube", "_videos:yes"]) := by
  constructor
  · intro h
    constructor
    · simp [update_metadata, h]
    · rw [List.count_append, List.count_eq_zero.mpr h]
      rfl
  · have hny : "_videos:yes" ∉ (["youtube"] : List String) := by decide
    rintro (h | h) <;> simp [update_metadata, tagsBase, h, hny]

theorem C6_capability_tag_witness :
    (update_metadata c6St c4Inp id).tags =
      some (tagsBase c6St.tags ++ ["_videos:yes"]) ∧
    (update_metadata c6StNone c4Inp id).tags =
      some ["youtube", "_videos:yes"] :=
  ⟨((C6_capability_tag c6St c4Inp id).1 (by decide)).1,
    (C6_capability_tag c6StNone c4Inp id).2 (Or.inl rfl)⟩

/-- C7: `is_hex_color` rejects `"red"` and the 5-digit `"#1a2b3"` and
accepts `"#1a2b3c"`; a supplied invalid main or secondary color makes
`check_branding_values` raise the validation error, and in `run` this
happens before the extraction stage: the trace records the error,
extraction never runs, and zero `get_videos_json` calls are issued. A
state supplying only the valid color passes the check unchanged. -/
theorem C7_color_validation :
    (is_hex_color "red" = false ∧ is_hex_color "#1a2b3" = false ∧
      is_hex_color "#1a2b3c" = true) ∧
    (∀ c fs profilePath bannerPath, c ≠ "" → is_hex_color c = false →
      (check_branding_values ⟨none, none, some c, none⟩ fs profilePath
          bannerPath).2 = some .badMainColor ∧
      ∀ ct youtubeId api cache fetch,
        run_until_extraction true ⟨none, none, some c, none⟩ fs profilePath
            bannerPath ct youtubeId api cache fetch =
          { error := some (.branding .badMainColor), extractionRan := false,
            videoApiCalls := 0 }) ∧
    (∀ c fs profilePath bannerPath, c ≠ "" → is_hex_color c = false →
      (check_branding_values ⟨none, none, none, some c⟩ fs profilePath
          bannerPath).2 = some .badSecondaryColor) ∧
    (∀ fs profilePath bannerPath,
      check_branding_values ⟨none, none, some "#1a2b3c", none⟩ fs profilePath
        bannerPath = (fs, none)) := by
  refine ⟨⟨by decide, by decide, by decide⟩, ?_, ?_, ?_⟩
  · intro c fs pp bp hne hbad
    have hchk : check_branding_values ⟨none, none, some c, none⟩ fs pp bp =
        (fs, some .badMainColor) := by
      simp [check_branding_values, handleImage, pyTruthy, hne, hbad]
    refine ⟨by rw [hchk], ?_⟩
    intro ct yid api cache fetch
    simp [run_until_extraction, hchk]
  · intro c fs pp bp hne hbad
    have hchk : check_branding_values ⟨none, none, none, some c⟩ fs pp bp =
        (fs, some .badSecondaryColor) := by
      simp [check_branding_values, handleImage, pyTruthy, hne, hbad]
    rw [hchk]
  · intro fs pp bp
    have hhex : is_hex_color "#1a2b3c" = true := by decide
    simp [check_branding_values, handleImage, pyTruthy, hhex]

theorem C7_color_validation_witness :
    (check_branding_values ⟨none, none, some "red", none⟩ ⟨[]⟩ "profile.jpg"
        "banner.jpg").2 = some .badMainColor ∧
    run_until_extraction true ⟨none, none, some "red", none⟩ ⟨[]⟩
        "profile.jpg" "banner.jpg" .playlist "PL1" c8api none c1fetch =
      { error := some (.branding .badMainColor), extractionRan := false,
        videoApiCalls := 0 } :=
  ⟨(C7_color_validation.2.1 "red" ⟨[]⟩ "profile.jpg" "banner.jpg" (by decide)
      (by decide)).1,
    (C7_color_validation.2.1 "red" ⟨[]⟩ "profile.jpg" "banner.jpg" (by decide)
      (by decide)).2 .playlist "PL1" c8api none c1fetch⟩

/-- C8: for a PlaylistList collection, `extract_playlists` splits the
identifier on commas, resolves each resulting id independently through
`Playlist.from_id` (every produced playlist is the resolution of some
listed id, and every listed id's resolution is produced), and sets the
main channel id to the creator of the first listed playlist. -/
theorem C8_playlist_list_split (youtubeId : String) (api : ApiEnv) :
    ((extract_playlists .playlist youtubeId api).2 =
      (api.playlist_from_id (splitComma youtubeId).headI).creator_id) ∧
    (∀ p, p ∈ (extract_playlists .playlist youtubeId api).1 →
      ∃ i, i ∈ splitComma youtubeId ∧ p = api.playlist_from_id i) ∧
    (∀ i, i ∈ splitComma youtubeId →
      api.playlist_from_id i ∈ (extract_playlists .playlist youtubeId api).1) ∧
    splitComma "PL1,PL2" = ["PL1", "PL2"] := by
  refine ⟨rfl, ?_, ?_, by decide⟩
  · intro p hp
    rcases List.mem_map.mp hp with ⟨i, hi, rfl⟩
    exact ⟨i, List.mem_dedup.mp hi, rfl⟩
  · intro i hi
    exact List.mem_map_of_mem _ (List.mem_dedup.mpr hi)

theorem C8_playlist_list_split_witness :
    (extract_playlists .playlist "PL1,PL2" c8api).2 =
      (c8api.playlist_from_id (splitComma "PL1,PL2").headI).creator_id ∧
    c8api.playlist_from_id "PL2" ∈
      (extract_playlists .playlist "PL1,PL2" c8api).1 :=
  ⟨(C8_playlist_list_split "PL1,PL2" c8api).1,
    (C8_playlist_list_split "PL1,PL2" c8api).2.2.1 "PL2" (by decide)⟩

/-- C9: each resolved playlist contributes to `data.js` the array of
its cached listing sorted by original in-playlist position (ascending;
`sort_by_position` permutes the listing and leaves the position
sequence sorted), mapped through `to_data_js` and bound to the
playlist's slug. -/
theorem C9_data_js_ordering (playlists : List PlaylistRec)
    (cacheLoad : String → List Video) (getSlug : String → String) :
    (∀ pl, pl ∈ playlists →
      (pl.slug,
        (sort_by_position (cacheLoad pl.playlist_id)).map
          (to_data_js getSlug)) ∈
        data_js_arrays playlists cacheLoad getSlug) ∧
    (∀ vs : List Video, List.Perm (sort_by_position vs) vs) ∧
    (∀ vs : List Video,
      ((sort_by_position vs).map Video.position).Sorted (· ≤ ·)) := by
  refine ⟨?_, ?_, ?_⟩
  · intro pl hpl
    exact List.mem_map.mpr ⟨pl, hpl, rfl⟩
  · intro vs
    exact List.perm_insertionSort posLe vs
  · intro vs
    exact List.Pairwise.map Video.position (fun a b h => h)
      (List.sorted_insertionSort posLe vs)

theorem C9_data_js_ordering_witness :
    (c9pl.slug,
      (sort_by_position (c9load c9pl.playlist_id)).map (to_data_js id)) ∈
      data_js_arrays [c9pl] c9load id ∧
    (sort_by_position (c9load c9pl.playlist_id)).map (to_data_js id) =
      [to_data_js id v1pl1, to_data_js id v2pl1] :=
  ⟨(C9_data_js_ordering [c9pl] c9load id).1 c9pl (by decide), by decide⟩

theorem FS.has_move_dst (fs : FS) (src dst : String) :
    (fs.move src dst).has dst = true := by
  simp [FS.move, FS.save, FS.has]

theorem FS.has_move_src (fs : FS) (src dst : String) (h : src ≠ dst) :
    (fs.move src dst).has src = false := by
  simp only [FS.move, FS.save, FS.remove, FS.has]
  rw [List.any_eq_false]
  intro q hq
  rcases List.mem_cons.mp hq with rfl | hq2
  · simp [h]
    intro hcon
    exact absurd hcon.symm h
  · rcases List.mem_filter.mp hq2 with ⟨_, hne⟩
    simpa using hne

theorem check_fst_image_moved (fs : FS) (pp bp img : String)
    (mc sc : Option String) (hne : img ≠ "") (hurl : isUrl img = false)
    (hhas : fs.has img = true) :
    (check_branding_values ⟨some img, none, mc, sc⟩ fs pp bp).1 =
        fs.move img pp ∧
    (check_branding_values ⟨none, some img, mc, sc⟩ fs pp bp).1 =
        fs.move img bp := by
  have h1 : handleImage (some img) fs pp .profileMissing =
      (fs.move img pp, none) := by
    simp [handleImage, hne, hurl, hhas]
  have h2 : handleImage (some img) fs bp .bannerMissing =
      (fs.move img bp, none) := by
    simp [handleImage, hne, hurl, hhas]
  constructor
  · have hskip : ¬((pyTruthy (some img) || pyTruthy none || pyTruthy mc ||
        pyTruthy sc) = false) := by
      simp [pyTruthy, hne]
    rw [check_branding_values]
    rw [if_neg hskip]
    simp only [h1]
    have hn1 : handleImage none (fs.move img pp) bp .bannerMissing =
        (fs.move img pp, none) := rfl
    simp only [hn1]
    split <;> first | rfl | (split <;> rfl)
  · have hskip : ¬((pyTruthy none || pyTruthy (some img) || pyTruthy mc ||
        pyTruthy sc) = false) := by
      simp [pyTruthy, hne]
    rw [check_branding_values]
    rw [if_neg hskip]
    have hn : handleImage none fs pp .profileMissing = (fs, none) := rfl
    simp only [hn, h2]
    split <;> first | rfl | (split <;> rfl)

/-- C10: a user-supplied local profile (resp. banner) image path that
exists is moved, not copied: after `check_branding_values` the image
exists at the build directory's profile.jpg (resp. banner.jpg) path
and no longer exists at the original user-supplied location. -/
theorem C10_local_image_moved (fs : FS) (profilePath bannerPath : String)
    (mc sc : Option String) :
    (∀ img, img ≠ "" → isUrl img = false → fs.has img = true →
      img ≠ profilePath →
      (check_branding_values ⟨some img, none, mc, sc⟩ fs profilePath
          bannerPath).1.has profilePath = true ∧
      (check_branding_values ⟨some img, none, mc, sc⟩ fs profilePath
          bannerPath).1.has img = false) ∧
    (∀ img, img ≠ "" → isUrl img = false → fs.has img = true →
      img ≠ bannerPath →
      (check_branding_values ⟨none, some img, mc, sc⟩ fs profilePath
          bannerPath).1.has bannerPath = true ∧
      (check_branding_values ⟨none, some img, mc, sc⟩ fs profilePath
          bannerPath).1.has img = false) := by
  constructor
  · intro img hne hurl hhas hdst
    rw [(check_fst_image_moved fs profilePath bannerPath img mc sc hne hurl
      hhas).1]
    exact ⟨FS.has_move_dst fs img profilePath,
      FS.has_move_src fs img profilePath hdst⟩
  · intro img hne hurl hhas hdst
    rw [(check_fst_image_moved fs profilePath bannerPath img mc sc hne hurl
      hhas).2]
    exact ⟨FS.has_move_dst fs img bannerPath,
      FS.has_move_src fs img bannerPath hdst⟩

theorem C10_local_image_moved_witness :
    (check_branding_values ⟨some "/home/u/pic.jpg", none, none, none⟩ c10fs
        "profile.jpg" "banner.jpg").1.has "profile.jpg" = true ∧
    (check_branding_values ⟨some "/home/u/pic.jpg", none, none, none⟩ c10fs
        "profile.jpg" "banner.jpg").1.has "/home/u/pic.jpg" = false :=
  (C10_local_image_moved c10fs "profile.jpg" "banner.jpg" none none).1
    "/home/u/pic.jpg" (by decide) (by decide) (by decide) (by decide)

end Youtube2Zim
